import Mathlib

/-!
Verification of the vector-memory subsystem of the minime repository
(server/index.js) against its natural-language specification.

The JavaScript source is shallowly embedded: JavaScript numbers that can
carry the IEEE special values produced by this code (NaN from 0/0, signed
infinities from x/0) are modelled by the type JsNum over idealized real
arithmetic; fallible code returns Except; the mutable server state
(chromaClient, chromaCollection, the remote collection contents, and the
in-memory vectorStore) is threaded explicitly through each operation.
-/

namespace Minime

/-- A JavaScript number as produced by the similarity code: either NaN,
a signed infinity, or an (idealized) real value. -/
inductive JsNum where
  | nan : JsNum
  | inf : Bool → JsNum
  | val : ℝ → JsNum

/-- JavaScript division of finite numbers, as in the final statement of
cosine: 0/0 is NaN and x/0 (for x nonzero, with the nonnegative zero that
arises from a product of square roots) is a signed infinity. -/
noncomputable def jsDiv (x y : ℝ) : JsNum :=
  if y = 0 then (if x = 0 then JsNum.nan else JsNum.inf (decide (0 < x)))
  else JsNum.val (x / y)

/-- The dot-product accumulator of cosine's loop (dot += a[i] * b[i], run
under the guard a.length === b.length). -/
def dotList (a b : List ℝ) : ℝ := (List.zipWith (fun x y => x * y) a b).sum

/-- The squared-norm accumulator of cosine's loop (na += a[i] * a[i]). -/
def sumSq (a : List ℝ) : ℝ := (a.map (fun x => x * x)).sum

/-- server/index.js, cosine(a, b): returns -1 when either argument is
absent or the lengths differ, and otherwise dot / (sqrt(na) * sqrt(nb)). -/
noncomputable def cosine (a b : Option (List ℝ)) : JsNum :=
  match a, b with
  | some a, some b =>
    if a.length = b.length then
      jsDiv (dotList a b) (Real.sqrt (sumSq a) * Real.sqrt (sumSq b))
    else JsNum.val (-1)
  | _, _ => JsNum.val (-1)

theorem sumSq_nonneg (a : List ℝ) : 0 ≤ sumSq a :=
  List.sum_nonneg (by
    intro x hx
    obtain ⟨y, _, rfl⟩ := List.mem_map.mp hx
    exact mul_self_nonneg y)

theorem sumSq_eq_zero_iff (a : List ℝ) : sumSq a = 0 ↔ ∀ x ∈ a, x = 0 := by
  induction a with
  | nil => simp [sumSq]
  | cons x t ih =>
    have hx : 0 ≤ x * x := mul_self_nonneg x
    have ht : 0 ≤ sumSq t := sumSq_nonneg t
    have hs : sumSq (x :: t) = x * x + sumSq t := by simp [sumSq]
    rw [hs, add_eq_zero_iff_of_nonneg hx ht]
    constructor
    · rintro ⟨h1, h2⟩ y hy
      rcases List.mem_cons.mp hy with rfl | hy
      · exact mul_self_eq_zero.mp h1
      · exact (ih.mp h2) y hy
    · intro h
      exact ⟨mul_self_eq_zero.mpr (h x (List.mem_cons_self x t)),
        ih.mpr fun y hy => h y (List.mem_cons_of_mem x hy)⟩

theorem dotList_comm (a b : List ℝ) : dotList a b = dotList b a := by
  induction a generalizing b with
  | nil => cases b <;> simp [dotList]
  | cons x t ih =>
    cases b with
    | nil => simp [dotList]
    | cons y s =>
      simp only [dotList, List.zipWith_cons_cons, List.sum_cons] at *
      rw [mul_comm, ih s]

theorem dotList_self (a : List ℝ) : dotList a a = sumSq a := by
  induction a with
  | nil => rfl
  | cons x t ih => simp only [dotList, sumSq, List.zipWith_cons_cons,
      List.map_cons, List.sum_cons] at *; rw [ih]

theorem dotList_eq_zero_of_left_zero (a b : List ℝ) (h : ∀ x ∈ a, x = 0) :
    dotList a b = 0 := by
  induction a generalizing b with
  | nil => cases b <;> rfl
  | cons x t ih =>
    cases b with
    | nil => rfl
    | cons y s =>
      simp only [dotList, List.zipWith_cons_cons, List.sum_cons]
      rw [h x (List.mem_cons_self x t), zero_mul, zero_add]
      exact ih s fun z hz => h z (List.mem_cons_of_mem x hz)

/-- C4: for every pair of inputs to cosine where either input is absent or
the two vectors' lengths differ, cosine returns the sentinel -1 and never
raises (it is a total function in the embedding). -/
theorem cosine_sentinel_on_absent_or_mismatch (a b : Option (List ℝ))
    (h : a = none ∨ b = none ∨ ∃ x y, a = some x ∧ b = some y ∧ x.length ≠ y.length) :
    cosine a b = JsNum.val (-1) := by
  rcases h with rfl | rfl | ⟨x, y, rfl, rfl, hxy⟩
  · rfl
  · cases a <;> rfl
  · simp [cosine, hxy]

/-- Witness for C4 at the spec's own example: score([1,0],[1,0,0]) is the
sentinel. -/
theorem cosine_sentinel_on_absent_or_mismatch_witness :
    cosine (some [1, 0]) (some [1, 0, 0]) = JsNum.val (-1) :=
  cosine_sentinel_on_absent_or_mismatch _ _
    (Or.inr (Or.inr ⟨[1, 0], [1, 0, 0], rfl, rfl, by decide⟩))

/-- Counterexample to C3 as stated: at the equal-length pair [0], [0] (a
zero-norm vector on both sides) cosine computes 0/0, which is NaN, and this
NaN is returned as is — it is not mapped to the sentinel -1. -/
theorem cosine_nan_not_mapped_counterexample :
    cosine (some [0]) (some [0]) = JsNum.nan ∧ JsNum.nan ≠ JsNum.val (-1) := by
  constructor
  · simp [cosine, dotList, sumSq, jsDiv]
  · intro h
    exact JsNum.noConfusion h

/-- C3 amended: for every pair of equal-length vectors where at least one
vector has zero norm, cosine returns NaN (the 0/0 of the final division);
the NaN is not mapped to the sentinel, so it does enter the ranking. -/
theorem cosine_zero_norm_returns_nan (a b : List ℝ)
    (hlen : a.length = b.length) (h : sumSq a = 0 ∨ sumSq b = 0) :
    cosine (some a) (some b) = JsNum.nan := by
  have hdot : dotList a b = 0 := by
    rcases h with h0 | h0
    · exact dotList_eq_zero_of_left_zero a b ((sumSq_eq_zero_iff a).mp h0)
    · rw [dotList_comm]
      exact dotList_eq_zero_of_left_zero b a ((sumSq_eq_zero_iff b).mp h0)
  have hden : Real.sqrt (sumSq a) * Real.sqrt (sumSq b) = 0 := by
    rcases h with h0 | h0
    · rw [h0, Real.sqrt_zero, zero_mul]
    · rw [h0, Real.sqrt_zero, mul_zero]
  simp only [cosine, if_pos hlen, hdot, hden]
  simp [jsDiv]

/-- Witness for C3 amended: the zero vector paired with a unit vector of
the same length yields NaN. -/
theorem cosine_zero_norm_returns_nan_witness :
    cosine (some [0, 0]) (some [1, 0]) = JsNum.nan :=
  cosine_zero_norm_returns_nan [0, 0] [1, 0] rfl
    (Or.inl (by norm_num [sumSq]))

/-! ## Data model and server state -/

/-- Opaque caller-supplied metadata object (string keys to values). -/
abbrev Meta := List (String × String)

/-- One stored unit of the in-memory vector store: the object literal
built in addVector (id, text, embedding, meta). -/
structure VectorRecord where
  id : String
  text : String
  embedding : Option (List ℝ)
  meta : Meta

/-- The object literal built by the fallback query path, a fresh copy of a
stored record with a score attached: the spread in map(v => ({ ...v,
score: cosine(embedding, v.embedding) })). The stored record itself is
held in record and is never mutated. -/
structure ScoredRecord where
  record : VectorRecord
  score : JsNum

/-- Which methods the duck-typed chroma collection object exposes; the
source probes each with typeof before calling. -/
structure CollectionAPI where
  hasAdd : Bool
  hasUpsert : Bool
  hasQuery : Bool
  hasGet : Bool
  hasDelete : Bool
  hasClear : Bool

/-- Which methods the duck-typed chroma client object exposes. -/
structure ClientAPI where
  hasGetCollection : Bool
  hasCreateCollection : Bool
  hasAdd : Bool
  hasQuery : Bool
  hasDeleteCollection : Bool

/-- One record persisted in the remote (chroma) logical collection named
minime, as sent by the add/upsert calls. -/
structure RemoteItem where
  id : String
  text : String
  meta : Meta
  embedding : Option (List ℝ)

/-- The mutable module-level state of server/index.js that the vector
operations read and write: the chromaClient and chromaCollection
variables, the contents of the remote collection, vectorStore.type and
vectorStore.vectors. -/
structure SrvState where
  chromaClient : Option ClientAPI
  chromaCollection : Option CollectionAPI
  remoteItems : List RemoteItem
  storeType : Bool
  vectors : List VectorRecord

/-- Which storage actually served (the visible effect of) one operation;
neither is used when the operation returned before touching a backend. -/
inductive ServedBy where
  | remote
  | memory
  | neither
deriving DecidableEq

/-! ## The embedding helper and its module scope -/

/-- A JavaScript error as thrown by the embedded code. -/
inductive JsErr where
  | referenceError (name : String)
  | providerError (msg : String)

/-- A value a module-level binding of server/index.js can hold, as far as
embedText inspects it: null/undefined (falsy), an OpenAI client whose
embeddings.create call is the given function, or any other object. -/
inductive JsVal where
  | nullish : JsVal
  | embClient (call : String → Except String (Option (List ℝ))) : JsVal
  | other : JsVal

/-- The identifiers declared at module level in server/index.js. The file
declares openaiChatClient and openaiEmbeddingsClient; no binding named
openaiClient exists anywhere in the module (nor is it a Node.js global). -/
def moduleScopeNames : List String :=
  ["express", "cors", "spawn", "GoogleGenerativeAI", "Chroma", "app",
   "ROOT_API_KEY", "apiKeyMiddleware", "genai", "OpenAIPkg",
   "openaiChatClient", "openaiEmbeddingsClient", "vectorStore",
   "chromaClient", "chromaCollection", "embedText", "cosine", "addVector",
   "queryVectors", "ACTION_WHITELIST", "port", "server"]

/-- Identifier resolution against the module scope of server/index.js:
the two OpenAI client variables hold the given values, every other
declared name is bound (to some object), and an undeclared name has no
binding at all. -/
def serverScope (chat emb : JsVal) : String → Option JsVal := fun n =>
  if n = "openaiChatClient" then some chat
  else if n = "openaiEmbeddingsClient" then some emb
  else if n ∈ moduleScopeNames then some JsVal.other
  else none

/-- server/index.js, embedText(text). The body's first statement reads the
identifier openaiClient (if (!openaiClient) return null); reading an
identifier with no binding throws a ReferenceError, before the try block
is entered. When the read succeeds: a falsy value returns null; a client
value calls the provider inside try/catch, returning the response's
embedding on success and null on any provider error; a non-client object
would make the method call itself throw inside the try, also caught and
converted to null. -/
def embedText (scope : String → Option JsVal) (text : String) :
    Except JsErr (Option (List ℝ)) :=
  match scope "openaiClient" with
  | none => .error (.referenceError "openaiClient")
  | some JsVal.nullish => .ok none
  | some (JsVal.embClient call) =>
    match call text with
    | .ok e => .ok e
    | .error _ => .ok none
  | some JsVal.other => .ok none

/-! ## addVector -/

/-- Fault injection for the remote calls addVector may make: whether each
of collection.add, collection.upsert, chromaClient.add throws. -/
structure AddFaults where
  addThrows : Bool
  upsertThrows : Bool
  clientAddThrows : Bool

/-- Outcome of one addVector call: the new server state, the returned
record (or the error the async function rejects with), and which backend
persisted the record. -/
structure AddOut where
  state : SrvState
  result : Except JsErr VectorRecord
  served : ServedBy

/-- The fall-through tail of addVector: vectorStore.vectors.push(item);
return item. -/
def fallbackPush (st : SrvState) (item : VectorRecord) : AddOut :=
  ⟨{ st with vectors := st.vectors ++ [item] }, .ok item, .memory⟩

/-- server/index.js, addVector({id, text, meta}): awaits embedText (a
rejection there rejects addVector itself — the await is not inside any
try); builds the item with id || (vectorStore.vectors.length+1).toString()
(a caller-supplied empty string is falsy and also gets the length-based
id) and meta || {}; when chromaCollection is set, probes add, then upsert,
then chromaClient.add, returning the item on the first success and
falling through to the in-memory push when the attempted call throws (or
none of the methods exists). -/
def addVector (scope : String → Option JsVal) (st : SrvState)
    (idArg : Option String) (text : String) (metaArg : Option Meta)
    (f : AddFaults) : AddOut :=
  match embedText scope text with
  | .error e => ⟨st, .error e, .neither⟩
  | .ok emb =>
    let autoId := toString (st.vectors.length + 1)
    let theId := match idArg with
      | some s => if s = "" then autoId else s
      | none => autoId
    let m := metaArg.getD []
    let item : VectorRecord := ⟨theId, text, emb, m⟩
    match st.chromaCollection with
    | some coll =>
      if coll.hasAdd then
        if f.addThrows then fallbackPush st item
        else ⟨{ st with remoteItems := st.remoteItems ++ [⟨theId, text, m, emb⟩] },
          .ok item, .remote⟩
      else if coll.hasUpsert then
        if f.upsertThrows then fallbackPush st item
        else ⟨{ st with remoteItems := st.remoteItems ++ [⟨theId, text, m, emb⟩] },
          .ok item, .remote⟩
      else
        match st.chromaClient with
        | some cl =>
          if cl.hasAdd then
            if f.clientAddThrows then fallbackPush st item
            else ⟨{ st with remoteItems := st.remoteItems ++ [⟨theId, text, m, none⟩] },
              .ok item, .remote⟩
          else fallbackPush st item
        | none => fallbackPush st item
    | none => fallbackPush st item

/-! ## queryVectors -/

/-- IEEE subtraction on JsNum, as performed by the sort comparator
(a, b) => b.score - a.score. -/
def jsSub : JsNum → JsNum → JsNum
  | .val x, .val y => .val (x - y)
  | .nan, _ => .nan
  | _, .nan => .nan
  | .inf p, .inf q => if p = q then .nan else .inf p
  | .inf p, .val _ => .inf p
  | .val _, .inf q => .inf !q

/-- The number a comparator result is treated as by Array.prototype.sort:
SortCompare maps a NaN result to +0, so a NaN comparison counts as a tie;
infinite results keep their sign. -/
def sortKeyE : JsNum → EReal
  | .nan => 0
  | .inf b => if b then ⊤ else ⊥
  | .val x => (x : EReal)

/-- The stable-sort order induced by the comparator
(a, b) => b.score - a.score: element a may stay before element b exactly
when the comparator value is not positive. -/
noncomputable def scoreLe (a b : ScoredRecord) : Bool :=
  decide (sortKeyE (jsSub b.score a.score) ≤ 0)

/-- The map step of the fallback query: score every stored record against
the query embedding, attaching the score to a fresh copy. -/
noncomputable def scoreAll (vectors : List VectorRecord) (embedding : List ℝ) :
    List ScoredRecord :=
  vectors.map fun v => ⟨v, cosine (some embedding) v.embedding⟩

/-- server/index.js, queryVectors fallback path (scored = map; scored.sort
by descending score; scored.slice(0, k)). Array.prototype.sort is stable;
it is modelled by the stable mergeSort under the comparator order. -/
noncomputable def fallbackQuery (vectors : List VectorRecord)
    (embedding : List ℝ) (k : Nat) : List ScoredRecord :=
  ((scoreAll vectors embedding).mergeSort scoreLe).take k

/-- One entry of a remote query result: {id, text, score}; the score is
the distance entry, which is absent when the distances array is shorter
than the documents array. -/
structure RemoteHit where
  id : String
  text : String
  score : Option ℝ

/-- Fault injection and reply data for the remote calls queryVectors may
make: whether collection.query / chromaClient.query throws, and the
ids/documents/distances arrays of a successful reply. -/
structure QueryFaults where
  queryThrows : Bool
  clientQueryThrows : Bool
  replyIds : List String
  replyDocs : List String
  replyDistances : List ℝ

/-- The loop normalizing a successful remote query reply: for each
document, id falls back to (i+1).toString() when ids[i] is missing or
empty (falsy), and score is distances[i]. -/
def remoteReplyHits (f : QueryFaults) : List RemoteHit :=
  (List.range f.replyDocs.length).map fun i =>
    ⟨(match f.replyIds[i]? with
      | some s => if s = "" then toString (i + 1) else s
      | none => toString (i + 1)),
     f.replyDocs[i]?.getD "",
     f.replyDistances[i]?⟩

/-- Result of one queryVectors call: the early-return empty array for an
absent embedding, a remote reply, or the in-memory scored ranking. -/
inductive QueryOut where
  | empty
  | remote (hits : List RemoteHit)
  | memory (hits : List ScoredRecord)

/-- server/index.js, queryVectors(embedding, k = 3): an absent embedding
returns [] immediately; otherwise the remote query is attempted when
chromaCollection is set (collection.query, else chromaClient.query), any
throw being caught and the in-memory similarity scan used instead. -/
noncomputable def queryVectors (st : SrvState) (f : QueryFaults)
    (embedding : Option (List ℝ)) (k : Nat := 3) : SrvState × QueryOut :=
  match embedding with
  | none => (st, .empty)
  | some emb =>
    match st.chromaCollection with
    | some coll =>
      if coll.hasQuery then
        if f.queryThrows then (st, .memory (fallbackQuery st.vectors emb k))
        else (st, .remote (remoteReplyHits f))
      else
        match st.chromaClient with
        | some cl =>
          if cl.hasQuery then
            if f.clientQueryThrows then (st, .memory (fallbackQuery st.vectors emb k))
            else (st, .remote (remoteReplyHits f))
          else (st, .memory (fallbackQuery st.vectors emb k))
        | none => (st, .memory (fallbackQuery st.vectors emb k))
    | none => (st, .memory (fallbackQuery st.vectors emb k))

/-! ## The list and clear handlers -/

/-- One entry of the normalized remote list reply: each field is nulled
when its source entry is missing or falsy. -/
structure ListItem where
  id : Option String
  text : Option String
  meta : Option Meta
  embedding : Option (List ℝ)

/-- The GET /api/vector/list reply: either the normalized remote items or
the raw in-memory records. -/
inductive ListReply where
  | fromRemote (items : List ListItem)
  | fromMemory (items : List VectorRecord)

/-- Whether a list reply holds no items. -/
def ListReply.itemsEmpty : ListReply → Bool
  | .fromRemote items => items.isEmpty
  | .fromMemory items => items.isEmpty

/-- Fault injection for the list handler: whether collection.get throws. -/
structure ListFaults where
  getThrows : Bool

/-- The normalization loop of the list handler applied to a successful
collection.get reply: ids and documents both come from the stored items
(so max(ids.length, documents.length) is the item count), an empty id or
document is nulled by the || null, metadata objects are truthy, and a
default get returns no embeddings. -/
def normalizeGot (items : List RemoteItem) : List ListItem :=
  items.map fun it =>
    ⟨(if it.id = "" then none else some it.id),
     (if it.text = "" then none else some it.text),
     some it.meta, none⟩

/-- server/index.js, GET /api/vector/list: when chromaCollection is set
and has get, a successful get is normalized and returned; a throw is
caught and the handler falls back to returning vectorStore.vectors. -/
def listVectors (st : SrvState) (f : ListFaults) :
    SrvState × ListReply × ServedBy :=
  match st.chromaCollection with
  | some coll =>
    if coll.hasGet then
      if f.getThrows then (st, .fromMemory st.vectors, .memory)
      else (st, .fromRemote (normalizeGot st.remoteItems), .remote)
    else (st, .fromMemory st.vectors, .memory)
  | none => (st, .fromMemory st.vectors, .memory)

/-- Fault injection for the clear handler: whether each remote call
(collection.delete, collection.clear, chromaClient.deleteCollection,
chromaClient.createCollection) throws. -/
structure ClearFaults where
  deleteThrows : Bool
  clearThrows : Bool
  deleteCollectionThrows : Bool
  createCollectionThrows : Bool

/-- The fall-through tail of the clear handler:
vectorStore.vectors = []. -/
def memClear (st : SrvState) : SrvState × ServedBy :=
  ({ st with vectors := [] }, .memory)

/-- server/index.js, POST /api/vector/clear: when chromaCollection is set,
probes collection.delete, collection.clear, then
chromaClient.deleteCollection (recreating the collection afterwards when
createCollection exists); the first succeeding path returns ok with the
remote contents removed; any throw is caught and the in-memory store is
cleared instead. A throw in createCollection happens after the remote
contents were already deleted, and still falls through to the in-memory
clear. The handler replies ok in every modelled branch. -/
def clearVectors (st : SrvState) (f : ClearFaults) : SrvState × ServedBy :=
  match st.chromaCollection with
  | some coll =>
    if coll.hasDelete then
      if f.deleteThrows then memClear st
      else ({ st with remoteItems := [] }, .remote)
    else if coll.hasClear then
      if f.clearThrows then memClear st
      else ({ st with remoteItems := [] }, .remote)
    else
      match st.chromaClient with
      | some cl =>
        if cl.hasDeleteCollection then
          if f.deleteCollectionThrows then memClear st
          else
            if cl.hasCreateCollection then
              if f.createCollectionThrows then memClear { st with remoteItems := [] }
              else ({ st with remoteItems := [], chromaCollection := some coll }, .remote)
            else ({ st with remoteItems := [] }, .remote)
        else memClear st
      | none => memClear st
  | none => memClear st

/-! ## Remote backend initialization -/

/-- The environment the one-time async chroma initialization runs in:
whether cloud credentials were supplied (selecting CloudClient over a
local client — both constructor branches can throw into the same outer
catch), whether the chosen constructor throws, the method surface of the
constructed client and of the obtained collection, whether
getCollection / createCollection throw, and the pre-existing contents of
the remote collection. -/
structure InitEnv where
  cloudCreds : Bool
  clientCtorThrows : Bool
  client : ClientAPI
  collection : CollectionAPI
  getCollectionThrows : Bool
  createCollectionThrows : Bool
  existingItems : List RemoteItem

/-- server/index.js lines 77-127, the ENABLE_CHROMA initialization block:
a constructor throw hits the outer catch (chromaClient = chromaCollection
= null); with a client, getCollection is probed and tried, its throw
falling to createCollection (whose absence or throw leaves the collection
null); vectorStore.type becomes chroma exactly when a collection was
obtained. The in-memory store starts empty. -/
def initChroma (env : InitEnv) : SrvState :=
  if env.clientCtorThrows then
    ⟨none, none, env.existingItems, false, []⟩
  else
    let cl := env.client
    if cl.hasGetCollection then
      if env.getCollectionThrows then
        if cl.hasCreateCollection then
          if env.createCollectionThrows then
            ⟨some cl, none, env.existingItems, false, []⟩
          else
            ⟨some cl, some env.collection, [], true, []⟩
        else ⟨some cl, none, env.existingItems, false, []⟩
      else ⟨some cl, some env.collection, env.existingItems, true, []⟩
    else ⟨some cl, none, env.existingItems, false, []⟩

/-- Initialization failed at some step: the client constructor threw, or
no getCollection method existed to obtain a collection, or getCollection
threw and the createCollection fallback was unavailable or threw too. -/
def initFailed (env : InitEnv) : Prop :=
  env.clientCtorThrows = true ∨ env.client.hasGetCollection = false ∨
    (env.getCollectionThrows = true ∧
      (env.client.hasCreateCollection = false ∨ env.createCollectionThrows = true))

instance (env : InitEnv) : Decidable (initFailed env) := by
  unfold initFailed; infer_instance

/-! ## Operation sequences -/

/-- One facade operation with its inputs and fault injection. -/
inductive OpCall where
  | add (idArg : Option String) (text : String) (metaArg : Option Meta) (f : AddFaults)
  | query (embedding : Option (List ℝ)) (k : Nat) (f : QueryFaults)
  | list (f : ListFaults)
  | clear (f : ClearFaults)

/-- Which backend a query result came from. -/
def servedOfQuery : QueryOut → ServedBy
  | .empty => .neither
  | .remote _ => .remote
  | .memory _ => .memory

/-- Run one facade operation, keeping the new state and which backend
served it. -/
noncomputable def opStep (scope : String → Option JsVal) (st : SrvState) :
    OpCall → SrvState × ServedBy
  | .add i t m f =>
    let o := addVector scope st i t m f
    (o.state, o.served)
  | .query e k f =>
    let r := queryVectors st f e k
    (r.1, servedOfQuery r.2)
  | .list f =>
    let r := listVectors st f
    (r.1, r.2.2)
  | .clear f => clearVectors st f

/-- Run a sequence of facade operations from a state, collecting which
backend served each one. -/
noncomputable def runOps (scope : String → Option JsVal) (st : SrvState) :
    List OpCall → SrvState × List ServedBy
  | [] => (st, [])
  | op :: rest =>
    let r := opStep scope st op
    let r2 := runOps scope r.1 rest
    (r2.1, r.2 :: r2.2)

/-! ## Derived comparisons and shared helper lemmas -/

/-- The JavaScript >= comparison on numbers: any comparison involving NaN
is false; otherwise the order of the extended reals (infinities at the
ends). -/
def jsGe (a b : JsNum) : Prop :=
  match a, b with
  | .nan, _ => False
  | _, .nan => False
  | a, b => sortKeyE b ≤ sortKeyE a

theorem serverScope_openaiClient (chat emb : JsVal) :
    serverScope chat emb "openaiClient" = none := by
  simp [serverScope, moduleScopeNames]

theorem embedText_serverScope (chat emb : JsVal) (text : String) :
    embedText (serverScope chat emb) text
      = Except.error (JsErr.referenceError "openaiClient") := by
  simp [embedText, serverScope_openaiClient]

theorem mem_fallbackQuery_record {vectors : List VectorRecord} {emb : List ℝ}
    {k : Nat} {x : ScoredRecord} (hx : x ∈ fallbackQuery vectors emb k) :
    x.record ∈ vectors := by
  have h1 : x ∈ (scoreAll vectors emb).mergeSort scoreLe :=
    List.mem_of_mem_take hx
  have h2 : x ∈ scoreAll vectors emb := List.mem_mergeSort.mp h1
  obtain ⟨v, hv, rfl⟩ := List.mem_map.mp h2
  exact hv

/-! ## C1, C7: the embedding helper and addVector on the real module scope -/

/-- C1 (code bug in the source): embedText cannot return at all — its
first statement reads the undeclared identifier openaiClient (the module
declares openaiChatClient and openaiEmbeddingsClient instead), so every
call rejects with a ReferenceError no matter how the provider clients are
configured; consequently addVector, which awaits it outside any
try/catch, also rejects instead of storing a record with an absent
embedding. -/
theorem embedText_always_rejects (chat emb : JsVal) (text : String)
    (st : SrvState) (idArg : Option String) (metaArg : Option Meta)
    (f : AddFaults) :
    embedText (serverScope chat emb) text
        = Except.error (JsErr.referenceError "openaiClient") ∧
    (addVector (serverScope chat emb) st idArg text metaArg f).result
        = Except.error (JsErr.referenceError "openaiClient") := by
  refine ⟨embedText_serverScope chat emb text, ?_⟩
  unfold addVector
  rw [embedText_serverScope chat emb text]

/-- C7 (code bug in the source): addVector never returns a record whose
text equals the input — for every input and every server state it rejects
with the ReferenceError from embedText, leaves the state unchanged and
touches no backend. -/
theorem addVector_rejects_every_input (chat emb : JsVal) (st : SrvState)
    (idArg : Option String) (text : String) (metaArg : Option Meta)
    (f : AddFaults) :
    addVector (serverScope chat emb) st idArg text metaArg f
      = ⟨st, Except.error (JsErr.referenceError "openaiClient"),
          ServedBy.neither⟩ := by
  unfold addVector
  rw [embedText_serverScope chat emb text]

/-! ## C9, C10: queryVectors -/

/-- C9: queryVectors with an absent embedding returns the empty result
immediately from any state, touching neither backend and leaving the
state unchanged, for every k; and an omitted k defaults to 3. -/
theorem queryVectors_absent_embedding (st : SrvState) (f : QueryFaults)
    (k : Nat) :
    queryVectors st f none k = (st, QueryOut.empty) ∧
    (∀ e : Option (List ℝ), queryVectors st f e = queryVectors st f e 3) :=
  ⟨rfl, fun _ => rfl⟩

/-- C10: a queryVectors call leaves the server state — in particular the
in-memory record sequence, its order and its fields — unchanged, and the
scored entries of a fallback ranking carry copies of stored records (each
result entry's record is one of the stored records, which themselves
never receive a score field). -/
theorem queryVectors_frame (st : SrvState) (f : QueryFaults)
    (e : Option (List ℝ)) (k : Nat) (emb : List ℝ) :
    (queryVectors st f e k).1 = st ∧
    ∀ x ∈ fallbackQuery st.vectors emb k, x.record ∈ st.vectors := by
  constructor
  · unfold queryVectors
    cases e with
    | none => rfl
    | some e0 =>
      rcases f with ⟨qt, cqt, rids, rdocs, rdist⟩
      rcases st with ⟨clq, collq, ri, stt, vs⟩
      cases collq with
      | none => rfl
      | some coll =>
        rcases coll with ⟨c1, c2, c3, c4, c5, c6⟩
        cases clq with
        | none => cases c3 <;> cases qt <;> rfl
        | some cl =>
          rcases cl with ⟨g1, g2, g3, g4, g5⟩
          cases c3 <;> cases qt <;> cases g4 <;> cases cqt <;> rfl
  · intro x hx
    exact mem_fallbackQuery_record hx

/-- Witness for C10 at a concrete state, embedding and k. -/
theorem queryVectors_frame_witness :
    (queryVectors ⟨none, none, [], false, [⟨"1", "a", some [1], []⟩]⟩
        ⟨false, false, [], [], []⟩ (some [1]) 2).1
      = ⟨none, none, [], false, [⟨"1", "a", some [1], []⟩]⟩ ∧
    ∀ x ∈ fallbackQuery [⟨"1", "a", some [1], []⟩] [1] 2,
      x.record ∈ [(⟨"1", "a", some [1], []⟩ : VectorRecord)] :=
  queryVectors_frame ⟨none, none, [], false, [⟨"1", "a", some [1], []⟩]⟩
    ⟨false, false, [], [], []⟩ (some [1]) 2 [1]

/-! ## C6: one-way degradation -/

theorem addVector_no_collection (scope : String → Option JsVal)
    (st : SrvState) (h : st.chromaCollection = none) (i : Option String)
    (t : String) (m : Option Meta) (f : AddFaults) :
    (addVector scope st i t m f).state.chromaCollection = none ∧
    (addVector scope st i t m f).served ≠ ServedBy.remote := by
  unfold addVector
  cases embedText scope t with
  | error e => exact ⟨h, by intro hc; cases hc⟩
  | ok emb =>
    rw [h]
    exact ⟨h, by intro hc; cases hc⟩

theorem queryVectors_no_collection (st : SrvState)
    (h : st.chromaCollection = none) (f : QueryFaults)
    (e : Option (List ℝ)) (k : Nat) :
    (queryVectors st f e k).1.chromaCollection = none ∧
    servedOfQuery (queryVectors st f e k).2 ≠ ServedBy.remote := by
  unfold queryVectors
  cases e with
  | none => exact ⟨h, by intro hc; cases hc⟩
  | some e0 =>
    rw [h]
    exact ⟨h, by intro hc; cases hc⟩

theorem listVectors_no_collection (st : SrvState)
    (h : st.chromaCollection = none) (f : ListFaults) :
    (listVectors st f).1.chromaCollection = none ∧
    (listVectors st f).2.2 ≠ ServedBy.remote := by
  unfold listVectors
  rw [h]
  exact ⟨h, by intro hc; cases hc⟩

theorem clearVectors_no_collection (st : SrvState)
    (h : st.chromaCollection = none) (f : ClearFaults) :
    (clearVectors st f).1.chromaCollection = none ∧
    (clearVectors st f).2 ≠ ServedBy.remote := by
  unfold clearVectors
  rw [h]
  exact ⟨h, by intro hc; cases hc⟩

theorem opStep_no_collection (scope : String → Option JsVal) (st : SrvState)
    (h : st.chromaCollection = none) (op : OpCall) :
    (opStep scope st op).1.chromaCollection = none ∧
    (opStep scope st op).2 ≠ ServedBy.remote := by
  cases op with
  | add i t m f => exact addVector_no_collection scope st h i t m f
  | query e k f => exact queryVectors_no_collection st h f e k
  | list f => exact listVectors_no_collection st h f
  | clear f => exact clearVectors_no_collection st h f

theorem runOps_no_collection (scope : String → Option JsVal) (st : SrvState)
    (h : st.chromaCollection = none) (ops : List OpCall) :
    (runOps scope st ops).1.chromaCollection = none ∧
    ∀ sb ∈ (runOps scope st ops).2, sb ≠ ServedBy.remote := by
  induction ops generalizing st with
  | nil => exact ⟨h, by intro sb hsb; cases hsb⟩
  | cons op rest ih =>
    obtain ⟨h1, h2⟩ := opStep_no_collection scope st h op
    obtain ⟨ih1, ih2⟩ := ih (opStep scope st op).1 h1
    refine ⟨ih1, ?_⟩
    intro sb hsb
    rcases List.mem_cons.mp hsb with rfl | hsb
    · exact h2
    · exact ih2 sb hsb

/-- C6: if the chroma initialization fails at any step — constructor
throw, no getCollection method, or getCollection throwing with
createCollection unavailable or also throwing — then chromaCollection is
left null, every subsequent add/query/list/clear in the process lifetime
is served without touching the remote backend, and chromaCollection stays
null forever (the preference never transitions back to remote). -/
theorem chroma_init_failure_is_permanent (scope : String → Option JsVal)
    (env : InitEnv) (ops : List OpCall) (h : initFailed env) :
    (initChroma env).chromaCollection = none ∧
    (runOps scope (initChroma env) ops).1.chromaCollection = none ∧
    ∀ sb ∈ (runOps scope (initChroma env) ops).2, sb ≠ ServedBy.remote := by
  have h0 : (initChroma env).chromaCollection = none := by
    rcases env with ⟨cc, ct, cl, coll, gt, crt, ei⟩
    rcases cl with ⟨hg, hcr, ha, hq, hd⟩
    unfold initFailed at h
    unfold initChroma
    simp only at h ⊢
    cases ct <;> cases hg <;> cases gt <;> cases hcr <;> cases crt <;>
      simp_all
  obtain ⟨h1, h2⟩ := runOps_no_collection scope (initChroma env) h0 ops
  exact ⟨h0, h1, h2⟩

/-- Witness for C6: a concrete failing initialization (the client has no
getCollection method) followed by a concrete list/clear/query/add
sequence: nothing is served remotely and the collection stays null. -/
theorem chroma_init_failure_is_permanent_witness :
    (initChroma ⟨false, false, ⟨false, true, true, true, true⟩,
        ⟨true, true, true, true, true, true⟩, false, false,
        []⟩).chromaCollection = none ∧
    (runOps (fun _ => none)
        (initChroma ⟨false, false, ⟨false, true, true, true, true⟩,
          ⟨true, true, true, true, true, true⟩, false, false, []⟩)
        [OpCall.list ⟨false⟩, OpCall.clear ⟨false, false, false, false⟩,
         OpCall.query none 3 ⟨false, false, [], [], []⟩,
         OpCall.add none "hi" none ⟨false, false, false⟩]).1.chromaCollection
      = none ∧
    ∀ sb ∈ (runOps (fun _ => none)
        (initChroma ⟨false, false, ⟨false, true, true, true, true⟩,
          ⟨true, true, true, true, true, true⟩, false, false, []⟩)
        [OpCall.list ⟨false⟩, OpCall.clear ⟨false, false, false, false⟩,
         OpCall.query none 3 ⟨false, false, [], [], []⟩,
         OpCall.add none "hi" none ⟨false, false, false⟩]).2,
      sb ≠ ServedBy.remote :=
  chroma_init_failure_is_permanent (fun _ => none)
    ⟨false, false, ⟨false, true, true, true, true⟩,
      ⟨true, true, true, true, true, true⟩, false, false, []⟩
    [OpCall.list ⟨false⟩, OpCall.clear ⟨false, false, false, false⟩,
     OpCall.query none 3 ⟨false, false, [], [], []⟩,
     OpCall.add none "hi" none ⟨false, false, false⟩]
    (Or.inr (Or.inl rfl))

/-! ## C8: clear followed by list -/

theorem clearVectors_cases (st : SrvState) (f : ClearFaults) :
    ((clearVectors st f).2 = ServedBy.remote ∧
      (clearVectors st f).1.remoteItems = [] ∧
      (clearVectors st f).1.vectors = st.vectors) ∨
    ((clearVectors st f).2 = ServedBy.memory ∧
      (clearVectors st f).1.vectors = []) := by
  unfold clearVectors memClear
  rcases st with ⟨clq, collq, ri, stt, vs⟩
  cases collq with
  | none => right; exact ⟨rfl, rfl⟩
  | some coll =>
    rcases f with ⟨dt, clt, dct, cct⟩
    rcases coll with ⟨c1, c2, c3, c4, c5, c6⟩
    cases c5 with
    | true =>
      cases dt with
      | true => right; exact ⟨rfl, rfl⟩
      | false => left; exact ⟨rfl, rfl, rfl⟩
    | false =>
      cases c6 with
      | true =>
        cases clt with
        | true => right; exact ⟨rfl, rfl⟩
        | false => left; exact ⟨rfl, rfl, rfl⟩
      | false =>
        cases clq with
        | none => right; exact ⟨rfl, rfl⟩
        | some cl =>
          rcases cl with ⟨g1, g2, g3, g4, g5⟩
          cases g5 with
          | false => right; exact ⟨rfl, rfl⟩
          | true =>
            cases dct with
            | true => right; exact ⟨rfl, rfl⟩
            | false =>
              cases g2 with
              | true =>
                cases cct with
                | true => right; exact ⟨rfl, rfl⟩
                | false => left; exact ⟨rfl, rfl, rfl⟩
              | false => left; exact ⟨rfl, rfl, rfl⟩

theorem listVectors_cases (st : SrvState) (g : ListFaults) :
    ((listVectors st g).2.2 = ServedBy.remote ∧
      (listVectors st g).2.1 = ListReply.fromRemote (normalizeGot st.remoteItems)) ∨
    ((listVectors st g).2.2 = ServedBy.memory ∧
      (listVectors st g).2.1 = ListReply.fromMemory st.vectors) := by
  unfold listVectors
  rcases st with ⟨clq, collq, ri, stt, vs⟩
  cases collq with
  | none => right; exact ⟨rfl, rfl⟩
  | some coll =>
    rcases coll with ⟨c1, c2, c3, c4, c5, c6⟩
    rcases g with ⟨gt⟩
    cases c4 with
    | false => right; exact ⟨rfl, rfl⟩
    | true =>
      cases gt with
      | true => right; exact ⟨rfl, rfl⟩
      | false => left; exact ⟨rfl, rfl⟩

/-- Counterexample to C8 as stated: in the state where the remote
collection holds one record, its delete method throws on this call, and
its get succeeds on the next, the clear handler replies ok (after
clearing only the in-memory store), yet the immediately following list is
served by the remote backend and returns the surviving remote record —
a non-empty sequence. -/
theorem clear_then_list_nonempty_counterexample :
    ListReply.itemsEmpty
        (listVectors
          (clearVectors
            ⟨some ⟨true, true, true, true, true⟩,
             some ⟨true, true, true, true, true, true⟩,
             [⟨"r1", "doc", [], none⟩], true, []⟩
            ⟨true, false, false, false⟩).1
          ⟨false⟩).2.1 = false := rfl

/-- C8 amended: the clear handler replies ok in every modelled branch;
when the visible effect of the clear was the in-memory store, that store
is empty afterwards; and an immediately following list that is served by
the same backend the clear's effect landed on returns an empty sequence.
When the two calls are served by different backends the other store's
surviving contents are returned instead. -/
theorem clear_then_list_same_backend_empty (st : SrvState) (f : ClearFaults)
    (g : ListFaults) :
    ((clearVectors st f).2 = ServedBy.memory →
      (clearVectors st f).1.vectors = []) ∧
    ((listVectors (clearVectors st f).1 g).2.2 = (clearVectors st f).2 →
      ListReply.itemsEmpty (listVectors (clearVectors st f).1 g).2.1 = true) := by
  rcases clearVectors_cases st f with ⟨hr, hri, _⟩ | ⟨hm, hv⟩
  · constructor
    · intro hmem
      rw [hr] at hmem
      cases hmem
    · intro hsame
      rcases listVectors_cases (clearVectors st f).1 g with ⟨_, lrep⟩ | ⟨lm, _⟩
      · rw [lrep, hri]
        rfl
      · rw [lm, hr] at hsame
        cases hsame
  · constructor
    · intro _
      exact hv
    · intro hsame
      rcases listVectors_cases (clearVectors st f).1 g with ⟨lr, _⟩ | ⟨_, lrep⟩
      · rw [lr, hm] at hsame
        cases hsame
      · rw [lrep, hv]
        rfl

/-- Witness for C8 amended: with no remote collection, clear and the
following list are both served by the in-memory store, and the list is
empty. -/
theorem clear_then_list_same_backend_empty_witness :
    ListReply.itemsEmpty
        (listVectors
          (clearVectors ⟨none, none, [], false, [⟨"1", "a", none, []⟩]⟩
            ⟨false, false, false, false⟩).1
          ⟨false⟩).2.1 = true :=
  (clear_then_list_same_backend_empty
    ⟨none, none, [], false, [⟨"1", "a", none, []⟩]⟩
    ⟨false, false, false, false⟩ ⟨false⟩).2 rfl

/-! ## C2: the comparator order of the fallback ranking -/

theorem scoreLe_total (a b : ScoredRecord) : scoreLe a b || scoreLe b a := by
  rcases a with ⟨ra, sa⟩
  rcases b with ⟨rb, sb⟩
  unfold scoreLe
  simp only [Bool.or_eq_true, decide_eq_true_eq]
  cases sa with
  | nan => cases sb <;> simp [jsSub, sortKeyE]
  | inf p =>
    cases sb with
    | nan => simp [jsSub, sortKeyE]
    | inf q => cases p <;> cases q <;> simp [jsSub, sortKeyE]
    | val y => cases p <;> simp [jsSub, sortKeyE]
  | val x =>
    cases sb with
    | nan => simp [jsSub, sortKeyE]
    | inf q => cases q <;> simp [jsSub, sortKeyE]
    | val y =>
      simp only [jsSub, sortKeyE, ← EReal.coe_zero, EReal.coe_le_coe_iff]
      rcases le_total x y with h | h
      · right
        exact sub_nonpos.mpr h
      · left
        exact sub_nonpos.mpr h

theorem scoreLe_iff_key {a b : ScoredRecord} (ha : a.score ≠ JsNum.nan)
    (hb : b.score ≠ JsNum.nan) :
    scoreLe a b = true ↔ sortKeyE b.score ≤ sortKeyE a.score := by
  rcases a with ⟨ra, sa⟩
  rcases b with ⟨rb, sb⟩
  simp only at ha hb
  unfold scoreLe
  simp only [decide_eq_true_eq]
  cases sa with
  | nan => exact absurd rfl ha
  | inf p =>
    cases sb with
    | nan => exact absurd rfl hb
    | inf q => cases p <;> cases q <;>
        simp [jsSub, sortKeyE, EReal.zero_ne_top, le_refl]
    | val y => cases p <;>
        simp [jsSub, sortKeyE, (EReal.coe_lt_top y).le, (EReal.bot_lt_coe y).not_le]
  | val x =>
    cases sb with
    | nan => exact absurd rfl hb
    | inf q => cases q <;>
        simp [jsSub, sortKeyE, (EReal.coe_lt_top x).not_le, (EReal.bot_lt_coe x).le]
    | val y =>
      simp only [jsSub, sortKeyE, ← EReal.coe_zero, EReal.coe_le_coe_iff]
      exact sub_nonpos

theorem scoreLe_transMem {l : List ScoredRecord}
    (h : ∀ s ∈ l, s.score ≠ JsNum.nan) :
    ∀ a ∈ l, ∀ b ∈ l, ∀ c ∈ l,
      scoreLe a b = true → scoreLe b c = true → scoreLe a c = true := by
  intro a ha b hb c hc hab hbc
  rw [scoreLe_iff_key (h a ha) (h b hb)] at hab
  rw [scoreLe_iff_key (h b hb) (h c hc)] at hbc
  rw [scoreLe_iff_key (h a ha) (h c hc)]
  exact le_trans hbc hab

theorem jsGe_of_key {a b : JsNum} (ha : a ≠ JsNum.nan) (hb : b ≠ JsNum.nan)
    (h : sortKeyE b ≤ sortKeyE a) : jsGe a b := by
  cases a with
  | nan => exact absurd rfl ha
  | inf p =>
    cases b with
    | nan => exact absurd rfl hb
    | inf q => exact h
    | val y => exact h
  | val x =>
    cases b with
    | nan => exact absurd rfl hb
    | inf q => exact h
    | val y => exact h

theorem scoreLe_of_eq_score {a b : ScoredRecord} (h : a.score = b.score) :
    scoreLe a b = true := by
  unfold scoreLe
  rw [h]
  simp only [decide_eq_true_eq]
  cases b.score with
  | nan => simp [jsSub, sortKeyE]
  | inf p => simp [jsSub, sortKeyE]
  | val x => simp [jsSub, sortKeyE]

/-- Transfer lemma: mergeSort over a list is the image of mergeSort over
the attached list under the value-restricted order. -/
theorem attach_mergeSort_map {α : Type _} (le : α → α → Bool) (l : List α) :
    ((l.attach.mergeSort fun a b => le a.1 b.1).map Subtype.val)
      = l.mergeSort le := by
  rw [@List.map_mergeSort _ _ (fun a b => le a.1 b.1) le Subtype.val l.attach
    (fun a _ b _ => rfl), List.attach_map_subtype_val]

/-- Sortedness of mergeSort when the order is transitive on the members of
the list (rather than globally), obtained through the subtype of members. -/
theorem mergeSort_pairwise_of_mem_trans {α : Type _} (le : α → α → Bool)
    (l : List α) (total : ∀ a b, le a b || le b a)
    (transMem : ∀ a ∈ l, ∀ b ∈ l, ∀ c ∈ l,
      le a b = true → le b c = true → le a c = true) :
    (l.mergeSort le).Pairwise (fun a b => le a b = true) := by
  have trans' : ∀ a b c : {x // x ∈ l},
      le a.1 b.1 → le b.1 c.1 → le a.1 c.1 :=
    fun a b c hab hbc => transMem a.1 a.2 b.1 b.2 c.1 c.2 hab hbc
  have total' : ∀ a b : {x // x ∈ l}, le a.1 b.1 || le b.1 a.1 :=
    fun a b => total a.1 b.1
  have hs := List.sorted_mergeSort trans' total' l.attach
  rw [← attach_mergeSort_map le l]
  exact List.pairwise_map.mpr hs

/-- Stability of mergeSort for a pair related by the order, when the order
is transitive on the members of the list. -/
theorem mergeSort_pair_sublist_of_mem_trans {α : Type _} (le : α → α → Bool)
    (l : List α) (a b : α) (total : ∀ x y, le x y || le y x)
    (transMem : ∀ x ∈ l, ∀ y ∈ l, ∀ z ∈ l,
      le x y = true → le y z = true → le x z = true)
    (hab : le a b = true) (hs : [a, b].Sublist l) :
    [a, b].Sublist (l.mergeSort le) := by
  have trans' : ∀ x y z : {v // v ∈ l},
      le x.1 y.1 → le y.1 z.1 → le x.1 z.1 :=
    fun x y z hxy hyz => transMem x.1 x.2 y.1 y.2 z.1 z.2 hxy hyz
  have total' : ∀ x y : {v // v ∈ l}, le x.1 y.1 || le y.1 x.1 :=
    fun x y => total x.1 y.1
  have hl : [a, b].Sublist (l.attach.map Subtype.val) := by
    rw [List.attach_map_subtype_val]
    exact hs
  obtain ⟨l', hl', heq⟩ := List.sublist_map_iff.mp hl
  rcases l' with _ | ⟨x, _ | ⟨y, _ | ⟨z, t⟩⟩⟩ <;> simp at heq
  obtain ⟨hxa, hyb⟩ := heq
  have hab' : le x.1 y.1 = true := by
    rw [hxa, hyb] at hab
    exact hab
  have hpair := List.pair_sublist_mergeSort trans' total' hab' hl'
  have hmap := hpair.map Subtype.val
  rw [attach_mergeSort_map le l] at hmap
  rw [hxa, hyb]
  simpa using hmap

/-- mergeSort of a two-element list. -/
theorem mergeSort_pair {α : Type _} (le : α → α → Bool) (a b : α) :
    [a, b].mergeSort le = if le a b then [a, b] else [b, a] := by
  rw [List.mergeSort]
  simp only [List.splitInTwo, List.length_cons, List.length_nil]
  norm_num
  rw [List.merge]
  split
  · simp [List.merge]
  · simp [List.merge]

/-- cosine of the concrete unit vectors [1] and [1] is 1. -/
theorem cosine_one_one : cosine (some [(1 : ℝ)]) (some [1]) = JsNum.val 1 := by
  norm_num [cosine, dotList, sumSq, jsDiv, Real.sqrt_one]

/-- cosine of the concrete unit vector [1] against the zero vector [0] is
NaN (0/0). -/
theorem cosine_one_zero : cosine (some [(1 : ℝ)]) (some [0]) = JsNum.nan := by
  norm_num [cosine, dotList, sumSq, jsDiv, Real.sqrt_one, Real.sqrt_zero]

/-- Counterexample to C2 as stated: with the store holding a zero-vector
record before a unit-vector record and the query [1], the first record
scores NaN; the comparator maps the NaN comparison to a tie, so the
NaN-scored record stays ranked first and the returned ranking is not
descending (NaN is not >= 1). -/
theorem fallbackQuery_not_sorted_counterexample :
    ¬ List.Pairwise (fun a b : ScoredRecord => jsGe a.score b.score)
        (fallbackQuery [⟨"1", "a", some [0], []⟩, ⟨"2", "b", some [1], []⟩]
          [1] 2) := by
  have h1 : scoreAll [⟨"1", "a", some [0], []⟩, ⟨"2", "b", some [1], []⟩] [1]
      = [⟨⟨"1", "a", some [0], []⟩, JsNum.nan⟩,
         ⟨⟨"2", "b", some [1], []⟩, JsNum.val 1⟩] := by
    simp [scoreAll, cosine_one_zero, cosine_one_one]
  have h2 : scoreLe ⟨⟨"1", "a", some [0], []⟩, JsNum.nan⟩
      ⟨⟨"2", "b", some [1], []⟩, JsNum.val 1⟩ = true := by
    simp [scoreLe, jsSub, sortKeyE]
  have h3 : fallbackQuery [⟨"1", "a", some [0], []⟩, ⟨"2", "b", some [1], []⟩]
        [1] 2
      = [⟨⟨"1", "a", some [0], []⟩, JsNum.nan⟩,
         ⟨⟨"2", "b", some [1], []⟩, JsNum.val 1⟩] := by
    unfold fallbackQuery
    rw [h1, mergeSort_pair, if_pos h2]
    rfl
  rw [h3]
  intro hp
  exact (List.pairwise_cons.mp hp).1 _ (List.mem_cons_self _ _)

/-- C2 amended: provided no stored record scores NaN against the query (no
zero-norm same-length pair is involved), the fallback query performs the
full ranked scan the claim describes: the ranking scores every stored
record and is a permutation of the scored list, it is pairwise sorted by
descending score, equal-score pairs keep their original insertion order
(stability), and the returned value is its k-prefix (truncation to at
most k results). Without the no-NaN proviso the sortedness clause fails. -/
theorem fallbackQuery_ranked_scan (vectors : List VectorRecord)
    (q : List ℝ) (k : Nat)
    (h : ∀ s ∈ scoreAll vectors q, s.score ≠ JsNum.nan) :
    ((scoreAll vectors q).mergeSort scoreLe).Perm (scoreAll vectors q) ∧
    ((scoreAll vectors q).mergeSort scoreLe).Pairwise
      (fun a b => jsGe a.score b.score) ∧
    (∀ a b, [a, b].Sublist (scoreAll vectors q) → a.score = b.score →
      [a, b].Sublist ((scoreAll vectors q).mergeSort scoreLe)) ∧
    fallbackQuery vectors q k = ((scoreAll vectors q).mergeSort scoreLe).take k := by
  refine ⟨List.mergeSort_perm _ _, ?_, ?_, rfl⟩
  · have hp := mergeSort_pairwise_of_mem_trans scoreLe (scoreAll vectors q)
      scoreLe_total (scoreLe_transMem h)
    refine hp.imp_of_mem ?_
    intro a b hma hmb hab
    have ha := h a (List.mem_mergeSort.mp hma)
    have hb := h b (List.mem_mergeSort.mp hmb)
    exact jsGe_of_key ha hb ((scoreLe_iff_key ha hb).mp hab)
  · intro a b hs heq
    exact mergeSort_pair_sublist_of_mem_trans scoreLe (scoreAll vectors q)
      a b scoreLe_total (scoreLe_transMem h) (scoreLe_of_eq_score heq) hs

/-- Witness for C2 amended at a concrete store of two records with equal
non-NaN scores against the query [1]. -/
theorem fallbackQuery_ranked_scan_witness :
    ((scoreAll [⟨"1", "a", some [1], []⟩, ⟨"2", "b", some [1], []⟩] [1]).mergeSort
        scoreLe).Perm
      (scoreAll [⟨"1", "a", some [1], []⟩, ⟨"2", "b", some [1], []⟩] [1]) ∧
    ((scoreAll [⟨"1", "a", some [1], []⟩, ⟨"2", "b", some [1], []⟩] [1]).mergeSort
        scoreLe).Pairwise (fun a b => jsGe a.score b.score) ∧
    (∀ a b, [a, b].Sublist
        (scoreAll [⟨"1", "a", some [1], []⟩, ⟨"2", "b", some [1], []⟩] [1]) →
      a.score = b.score →
      [a, b].Sublist
        ((scoreAll [⟨"1", "a", some [1], []⟩, ⟨"2", "b", some [1], []⟩]
          [1]).mergeSort scoreLe)) ∧
    fallbackQuery [⟨"1", "a", some [1], []⟩, ⟨"2", "b", some [1], []⟩] [1] 2
      = ((scoreAll [⟨"1", "a", some [1], []⟩, ⟨"2", "b", some [1], []⟩]
          [1]).mergeSort scoreLe).take 2 :=
  fallbackQuery_ranked_scan
    [⟨"1", "a", some [1], []⟩, ⟨"2", "b", some [1], []⟩] [1] 2
    (by
      intro s hs
      simp only [scoreAll, List.map_cons, List.map_nil, cosine_one_one] at hs
      rcases List.mem_cons.mp hs with rfl | hs
      · intro hc
        cases hc
      · rcases List.mem_cons.mp hs with rfl | hs
        · intro hc
          cases hc
        · cases hs)

end Minime
